import Mathlib

/-!
Verification of the work-tracking backend: a shallow embedding of the
mutation-to-audit-trail engine (TaskService), the chat message service
(MessageService), the message routes, and the socket presence registry,
together with theorems settling the specification claims.

ObjectId values are modelled as `Nat` (Mongo ObjectIds are fixed-width hex
strings, so lexicographic string order coincides with numeric order).
Timestamps are `Nat` milliseconds.
-/

namespace S2P

/-! ## Task data model (src/unnamed/part_000, Task schema) -/

inductive TaskStatus
  | backlog | todo | in_progress | in_review | done | archived
deriving DecidableEq, Repr

inductive TaskPriority
  | low | medium | high | urgent
deriving DecidableEq, Repr

inductive ActivityType
  | created | updated | status_changed | assigned | unassigned
  | priority_changed | due_date_changed | comment_added
  | attachment_added | attachment_removed | tag_added | tag_removed
deriving DecidableEq, Repr

/-- Typed rendering of the `metadata` payloads the task service attaches to
activities (the schema stores them as untyped Mixed). -/
inductive ActivityMeta
  | noMeta
  | fromToStatus (f t : TaskStatus)
  | fromToPriority (f t : TaskPriority)
  | fromToDue (f t : Option Nat)
  | addedIds (ids : List Nat)
  | removedIds (ids : List Nat)
  | changedFields (names : List String)
deriving DecidableEq, Repr

structure Activity where
  type : ActivityType
  actor : Nat
  description : String
  metadata : ActivityMeta
  timestamp : Nat
deriving DecidableEq, Repr

/-- Task document. Fields that no claim touches (comments, attachments,
subtasks, dependencies, recurring pattern, estimated hours, start date)
are omitted; none of them interacts with the modelled operations. -/
structure Task where
  id : Nat
  title : String
  description : Option String := none
  status : TaskStatus := .todo
  priority : TaskPriority := .medium
  assignees : List Nat := []
  createdBy : Nat
  dueDate : Option Nat := none
  completedAt : Option Nat := none
  tags : List String := []
  actualHours : Nat := 0
  order : Nat := 0
  activities : List Activity := []
deriving DecidableEq, Repr

def statusStr : TaskStatus → String
  | .backlog => "backlog"
  | .todo => "todo"
  | .in_progress => "in_progress"
  | .in_review => "in_review"
  | .done => "done"
  | .archived => "archived"

def priorityStr : TaskPriority → String
  | .low => "low"
  | .medium => "medium"
  | .high => "high"
  | .urgent => "urgent"

/-- The `pre` save hook of the task schema (part_000 lines 227-237):
when the status path was modified, entering `done` stamps `completedAt`
(if not already set) and any non-`done` status clears it.  Mongoose runs
this middleware only on `Document.save`, never on `findByIdAndUpdate`
or `updateMany`. -/
def preSaveStatusHook (t : Task) (statusModified : Bool) (now : Nat) : Task :=
  if statusModified then
    if t.status = .done ∧ t.completedAt = none then { t with completedAt := some now }
    else if t.status ≠ .done then { t with completedAt := none }
    else t
  else t

/-! ## Diff engine (src/backend/src/services/user.service.ts, TaskService.updateTask) -/

/-- The partial update accepted by `TaskService.updateTask`.  A field that is
`none` is absent from the request body.  `dueDate` distinguishes an absent key
(`none`) from an explicit null (`some none`), matching the
`updates.dueDate !== undefined` check in the source. -/
structure UpdateTaskData where
  title : Option String := none
  description : Option String := none
  status : Option TaskStatus := none
  priority : Option TaskPriority := none
  assignees : Option (List Nat) := none
  dueDate : Option (Option Nat) := none
  tags : Option (List String) := none
  actualHours : Option Nat := none
  order : Option Nat := none
deriving DecidableEq, Repr

/-- `Object.keys(updates)` over the modelled fields. -/
def presentFieldNames (u : UpdateTaskData) : List String :=
  (if u.title.isSome then ["title"] else []) ++
  (if u.description.isSome then ["description"] else []) ++
  (if u.status.isSome then ["status"] else []) ++
  (if u.priority.isSome then ["priority"] else []) ++
  (if u.assignees.isSome then ["assignees"] else []) ++
  (if u.dueDate.isSome then ["dueDate"] else []) ++
  (if u.tags.isSome then ["tags"] else []) ++
  (if u.actualHours.isSome then ["actualHours"] else []) ++
  (if u.order.isSome then ["order"] else [])

/-- Calendar-day normalisation of a millisecond timestamp, mirroring
`toISOString().split(sep)[0]`. -/
def dayOf (t : Nat) : Nat := t / 86400000

/-- Rule 1 of the diff engine: status proposed and different. -/
def statusActivity (t : Task) (u : UpdateTaskData) (actor now : Nat) : List Activity :=
  match u.status with
  | none => []
  | some s =>
    if s ≠ t.status then
      [⟨.status_changed, actor,
        "Status changed from \"" ++ statusStr t.status ++ "\" to \"" ++ statusStr s ++ "\"",
        .fromToStatus t.status s, now⟩]
    else []

/-- Rule 2: priority proposed and different. -/
def priorityActivity (t : Task) (u : UpdateTaskData) (actor now : Nat) : List Activity :=
  match u.priority with
  | none => []
  | some p =>
    if p ≠ t.priority then
      [⟨.priority_changed, actor,
        "Priority changed from \"" ++ priorityStr t.priority ++ "\" to \"" ++ priorityStr p ++ "\"",
        .fromToPriority t.priority p, now⟩]
    else []

/-- Rule 3: dueDate key present and calendar day differs.  In the source the
old value is a string or `undefined` and the proposed one a string or `null`;
`undefined !== null` holds in JS, so the comparison only returns equal when
both sides are actual days of equal value. -/
def dueDateActivity (t : Task) (u : UpdateTaskData) (actor now : Nat) : List Activity :=
  match u.dueDate with
  | none => []
  | some proposed =>
    let oldD := t.dueDate.map dayOf
    let newD := proposed.map dayOf
    if oldD.isSome ∧ oldD = newD then []
    else
      [⟨.due_date_changed, actor,
        (match newD with
         | some d => "Due date changed to " ++ toString d
         | none => "Due date removed"),
        .fromToDue oldD newD, now⟩]

/-- Rule 4: assignee diff (user.service.ts lines 449-477).  The source sorts
both id lists (JS default string sort; ObjectId strings have fixed width, so
numeric order on the modelled `Nat` ids is the same order), compares them via
`JSON.stringify`, and when different filters each side against the other. -/
def natLe (a b : Nat) : Bool := decide (a ≤ b)

def assigneeActivities (oldA newA : List Nat) (actor now : Nat) : List Activity :=
  let oldS := oldA.mergeSort natLe
  let newS := newA.mergeSort natLe
  if oldS = newS then []
  else
    let added := newS.filter (fun a => decide (a ∉ oldS))
    let removed := oldS.filter (fun a => decide (a ∉ newS))
    (if 0 < added.length then
       [⟨.assigned, actor, "Assignees added", .addedIds added, now⟩] else []) ++
    (if 0 < removed.length then
       [⟨.unassigned, actor, "Assignees removed", .removedIds removed, now⟩] else [])

/-- The ordered activity list computed by `TaskService.updateTask`
(lines 406-488), including the `updated` fallback when no specific rule
fired but the proposal is non-empty. -/
def computeActivities (t : Task) (u : UpdateTaskData) (actor now : Nat) : List Activity :=
  let acts :=
    statusActivity t u actor now ++
    priorityActivity t u actor now ++
    dueDateActivity t u actor now ++
    (match u.assignees with
     | some ns => assigneeActivities t.assignees ns actor now
     | none => [])
  if acts.length = 0 ∧ 0 < (presentFieldNames u).length then
    [⟨.updated, actor, "Task updated", .changedFields (presentFieldNames u), now⟩]
  else acts

/-- The `findByIdAndUpdate` write of `updateTask` (lines 490-503): `$set` of
the proposed fields plus `$push` of the computed activities.  This is a query
update, so the `pre` save middleware does not run and `completedAt` is left
untouched. -/
def applyTaskUpdate (t : Task) (u : UpdateTaskData) (acts : List Activity) : Task :=
  { t with
    title := u.title.getD t.title,
    description := match u.description with | some d => some d | none => t.description,
    status := u.status.getD t.status,
    priority := u.priority.getD t.priority,
    assignees := u.assignees.getD t.assignees,
    dueDate := match u.dueDate with | some v => v | none => t.dueDate,
    tags := u.tags.getD t.tags,
    actualHours := u.actualHours.getD t.actualHours,
    order := u.order.getD t.order,
    activities := t.activities ++ acts }

/-- `TaskService.updateTask` on a found task document. -/
def updateTaskDoc (t : Task) (u : UpdateTaskData) (actor now : Nat) : Task :=
  applyTaskUpdate t u (computeActivities t u actor now)

/-- `TaskService.createTask`: builds the new document (status defaulting to
`todo`, a single `created` activity) and saves it, which runs the status
hook (a new document has its status path modified). -/
structure CreateTaskData where
  title : String
  description : Option String := none
  status : Option TaskStatus := none
  priority : Option TaskPriority := none
  assignees : Option (List Nat) := none
  dueDate : Option Nat := none
  tags : Option (List String) := none
deriving DecidableEq, Repr

def createTask (d : CreateTaskData) (creator newId now : Nat) : Task :=
  preSaveStatusHook
    { id := newId
      title := d.title
      description := d.description
      status := d.status.getD .todo
      priority := d.priority.getD .medium
      assignees := d.assignees.getD []
      createdBy := creator
      dueDate := d.dueDate
      completedAt := none
      tags := d.tags.getD []
      activities := [⟨.created, creator, "Task created", .noMeta, now⟩] }
    true now

/-- `TaskService.bulkUpdateStatus` (lines 785-806): an `updateMany` that sets
the status and pushes one `status_changed` activity (with no metadata) on
every listed task.  Again a query update: the save hook does not run and
`completedAt` is untouched. -/
def bulkUpdateStatus (store : List Task) (ids : List Nat) (st : TaskStatus)
    (actor now : Nat) : List Task :=
  store.map fun t =>
    if ids.contains t.id then
      { t with
        status := st
        activities := t.activities ++
          [⟨.status_changed, actor, "Status changed to \"" ++ statusStr st ++ "\"",
            .noMeta, now⟩] }
    else t

/-- The completedAt/status invariant claimed by the specification. -/
def completedAtInvariant (t : Task) : Prop :=
  t.completedAt ≠ none ↔ t.status = .done

instance (t : Task) : Decidable (completedAtInvariant t) := by
  unfold completedAtInvariant; infer_instance

/-! ## Concrete tasks used by the claim theorems -/

/-- A plain `todo` task with no due date and no completion stamp. -/
def c1Task : Task := { id := 1, title := "t", createdBy := 7 }

/-- A `done` task whose `completedAt` is set, as the invariant demands. -/
def c1DoneTask : Task :=
  { id := 2, title := "t", createdBy := 7, status := .done, completedAt := some 5 }

/-- C1: the specification states that `completedAt` is non-null iff the status
is `done`, and that every completed update operation preserves this.  The
create path does maintain it (the save hook runs on `Document.save`), but
`TaskService.updateTask` writes through `findByIdAndUpdate` and
`bulkUpdateStatus` through `updateMany`, neither of which runs the
`pre` save middleware that stamps or clears `completedAt`; the schema comment
"Auto-set completedAt when status changes to done" and the
`completedThisWeek` statistics (which query `status: done` together with a
`completedAt` bound) show the invariant is the intended behaviour, so this is
a code bug.  At the failing inputs below a status update to `done` leaves
`completedAt` null, a status update away from `done` leaves it set, and the
bulk status update to `done` also leaves it null. -/
theorem c1_completedAt_hook_bypassed :
    completedAtInvariant (createTask { title := "t", status := some .done } 7 3 100) ∧
    (updateTaskDoc c1Task { status := some .done } 7 1000).status = .done ∧
    (updateTaskDoc c1Task { status := some .done } 7 1000).completedAt = none ∧
    ¬ completedAtInvariant (updateTaskDoc c1Task { status := some .done } 7 1000) ∧
    (updateTaskDoc c1DoneTask { status := some .todo } 7 1000).status = .todo ∧
    (updateTaskDoc c1DoneTask { status := some .todo } 7 1000).completedAt = some 5 ∧
    (bulkUpdateStatus [c1Task] [1] .done 7 1000) =
      [{ c1Task with
          status := .done
          activities := [⟨.status_changed, 7, "Status changed to \"done\"", .noMeta, 1000⟩] }] := by
  decide

/-- C2: an update whose proposal contains only a status field differing from
the current status appends exactly one `status_changed` activity carrying
`{from, to}` metadata, and no `updated` activity. -/
theorem c2_status_only_update (t : Task) (s : TaskStatus) (actor now : Nat)
    (h : s ≠ t.status) :
    computeActivities t { status := some s } actor now =
      [⟨.status_changed, actor,
        "Status changed from \"" ++ statusStr t.status ++ "\" to \"" ++ statusStr s ++ "\"",
        .fromToStatus t.status s, now⟩] ∧
    (updateTaskDoc t { status := some s } actor now).activities =
      t.activities ++
        [⟨.status_changed, actor,
          "Status changed from \"" ++ statusStr t.status ++ "\" to \"" ++ statusStr s ++ "\"",
          .fromToStatus t.status s, now⟩] := by
  have hA : computeActivities t { status := some s } actor now =
      [⟨.status_changed, actor,
        "Status changed from \"" ++ statusStr t.status ++ "\" to \"" ++ statusStr s ++ "\"",
        .fromToStatus t.status s, now⟩] := by
    simp [computeActivities, statusActivity, priorityActivity, dueDateActivity, h]
  exact ⟨hA, by simp [updateTaskDoc, applyTaskUpdate, hA]⟩

/-- C2 witness: the theorem applied at the concrete `todo` task with a
proposal setting the status to `done`. -/
theorem c2_status_only_update_witness :
    computeActivities c1Task { status := some .done } 7 50 =
      [⟨.status_changed, 7,
        "Status changed from \"todo\" to \"done\"",
        .fromToStatus .todo .done, 50⟩] ∧
    (updateTaskDoc c1Task { status := some .done } 7 50).activities =
      [⟨.status_changed, 7,
        "Status changed from \"todo\" to \"done\"",
        .fromToStatus .todo .done, 50⟩] := by
  have h := c2_status_only_update c1Task .done 7 50 (by decide)
  simpa [c1Task] using h

/-- Set-level characterisation of the assignee diff: the added and removed
lists are the two sides of the symmetric difference of the old and proposed
id sets, and each activity fires exactly when its side is non-empty. -/
theorem assigneeActivities_sdiff (actor now : Nat) (oldA newA : List Nat) :
    ∃ addedL removedL : List Nat,
      addedL.toFinset = newA.toFinset \ oldA.toFinset ∧
      removedL.toFinset = oldA.toFinset \ newA.toFinset ∧
      assigneeActivities oldA newA actor now =
        (if 0 < addedL.length then
           [⟨.assigned, actor, "Assignees added", .addedIds addedL, now⟩] else []) ++
        (if 0 < removedL.length then
           [⟨.unassigned, actor, "Assignees removed", .removedIds removedL, now⟩] else []) := by
  by_cases hEq : oldA.mergeSort natLe = newA.mergeSort natLe
  · have h1 : oldA.toFinset = newA.toFinset := by
      have po := List.toFinset_eq_of_perm _ _ (List.mergeSort_perm oldA natLe)
      have pn := List.toFinset_eq_of_perm _ _ (List.mergeSort_perm newA natLe)
      rw [← po, hEq, pn]
    refine ⟨[], [], by simp [h1], by simp [h1], ?_⟩
    simp [assigneeActivities, hEq]
  · refine ⟨(newA.mergeSort natLe).filter (fun a => decide (a ∉ oldA.mergeSort natLe)),
      (oldA.mergeSort natLe).filter (fun a => decide (a ∉ newA.mergeSort natLe)), ?_, ?_, ?_⟩
    · ext x
      simp [List.mem_filter, List.mem_mergeSort, Finset.mem_sdiff]
    · ext x
      simp [List.mem_filter, List.mem_mergeSort, Finset.mem_sdiff]
    · simp [assigneeActivities, hEq]

/-- C9: changing assignees from `[A, B]` to `[B, C]` (all distinct) appends
exactly one `assigned` activity with `added = [C]` followed by one
`unassigned` activity with `removed = [A]`; in general the added and removed
lists of the assignee diff are the two sides of the symmetric difference of
the old and proposed id sets, and each activity fires only when its side is
non-empty. -/
theorem c9_assignee_symmetric_difference (A B C actor now : Nat) (t : Task)
    (hAB : A ≠ B) (hBC : B ≠ C) (hAC : A ≠ C) (hassign : t.assignees = [A, B]) :
    (computeActivities t { assignees := some [B, C] } actor now =
      [⟨.assigned, actor, "Assignees added", .addedIds [C], now⟩,
       ⟨.unassigned, actor, "Assignees removed", .removedIds [A], now⟩]) ∧
    ((updateTaskDoc t { assignees := some [B, C] } actor now).activities =
      t.activities ++
        [⟨.assigned, actor, "Assignees added", .addedIds [C], now⟩,
         ⟨.unassigned, actor, "Assignees removed", .removedIds [A], now⟩]) ∧
    (∀ oldA newA : List Nat, ∃ addedL removedL : List Nat,
      addedL.toFinset = newA.toFinset \ oldA.toFinset ∧
      removedL.toFinset = oldA.toFinset \ newA.toFinset ∧
      assigneeActivities oldA newA actor now =
        (if 0 < addedL.length then
           [⟨.assigned, actor, "Assignees added", .addedIds addedL, now⟩] else []) ++
        (if 0 < removedL.length then
           [⟨.unassigned, actor, "Assignees removed", .removedIds removedL, now⟩] else [])) := by
  have hOld : ∀ x : Nat, x ∈ ([A, B] : List Nat).mergeSort natLe ↔ (x = A ∨ x = B) := by
    intro x
    rw [List.mem_mergeSort]
    simp
  have hNew : ∀ x : Nat, x ∈ ([B, C] : List Nat).mergeSort natLe ↔ (x = B ∨ x = C) := by
    intro x
    rw [List.mem_mergeSort]
    simp
  have hguard : ¬ (([A, B] : List Nat).mergeSort natLe = ([B, C] : List Nat).mergeSort natLe) := by
    intro hEq
    have hA : A ∈ ([B, C] : List Nat).mergeSort natLe := by
      rw [← hEq]
      exact (hOld A).mpr (Or.inl rfl)
    rcases (hNew A).mp hA with h | h
    · exact hAB h
    · exact hAC h
  have hadded : (([B, C] : List Nat).mergeSort natLe).filter
      (fun a => decide (a ∉ ([A, B] : List Nat).mergeSort natLe)) = [C] := by
    apply List.perm_singleton.mp
    have hp := (List.mergeSort_perm [B, C] natLe).filter
      (fun a => decide (a ∉ ([A, B] : List Nat).mergeSort natLe))
    have hval : ([B, C] : List Nat).filter
        (fun a => decide (a ∉ ([A, B] : List Nat).mergeSort natLe)) = [C] := by
      have hB : B ∈ ([A, B] : List Nat).mergeSort natLe := (hOld B).mpr (Or.inr rfl)
      have hCn : ¬ C ∈ ([A, B] : List Nat).mergeSort natLe := by
        intro hC
        rcases (hOld C).mp hC with h | h
        · exact hAC h.symm
        · exact hBC h.symm
      simp [hB, hCn]
      exact ⟨fun h => hAC h.symm, fun h => hBC h.symm⟩
    rw [hval] at hp
    exact hp
  have hremoved : (([A, B] : List Nat).mergeSort natLe).filter
      (fun a => decide (a ∉ ([B, C] : List Nat).mergeSort natLe)) = [A] := by
    apply List.perm_singleton.mp
    have hp := (List.mergeSort_perm [A, B] natLe).filter
      (fun a => decide (a ∉ ([B, C] : List Nat).mergeSort natLe))
    have hval : ([A, B] : List Nat).filter
        (fun a => decide (a ∉ ([B, C] : List Nat).mergeSort natLe)) = [A] := by
      have hB : B ∈ ([B, C] : List Nat).mergeSort natLe := (hNew B).mpr (Or.inl rfl)
      have hAn : ¬ A ∈ ([B, C] : List Nat).mergeSort natLe := by
        intro hA
        rcases (hNew A).mp hA with h | h
        · exact hAB h
        · exact hAC h
      simp [hB, hAn]
      simp [hAB, hAC]
    rw [hval] at hp
    exact hp
  have hAA : assigneeActivities [A, B] [B, C] actor now =
      [⟨.assigned, actor, "Assignees added", .addedIds [C], now⟩,
       ⟨.unassigned, actor, "Assignees removed", .removedIds [A], now⟩] := by
    simp only [assigneeActivities]
    rw [if_neg hguard, hadded, hremoved]
    simp
  have hmain : computeActivities t { assignees := some [B, C] } actor now =
      [⟨.assigned, actor, "Assignees added", .addedIds [C], now⟩,
       ⟨.unassigned, actor, "Assignees removed", .removedIds [A], now⟩] := by
    simp [computeActivities, statusActivity, priorityActivity, dueDateActivity, hassign, hAA]
  exact ⟨hmain, by simp [updateTaskDoc, applyTaskUpdate, hmain],
    fun oldA newA => assigneeActivities_sdiff actor now oldA newA⟩

/-- A task assigned to users 1 and 2, used to witness the assignee diff. -/
def c9Task : Task := { id := 4, title := "t", createdBy := 7, assignees := [1, 2] }

/-- C9 witness: the theorem applied at assignees `[1, 2]` updated to `[2, 3]`. -/
theorem c9_assignee_symmetric_difference_witness :
    computeActivities c9Task { assignees := some [2, 3] } 7 60 =
      [⟨.assigned, 7, "Assignees added", .addedIds [3], 60⟩,
       ⟨.unassigned, 7, "Assignees removed", .removedIds [1], 60⟩] ∧
    (updateTaskDoc c9Task { assignees := some [2, 3] } 7 60).activities =
      [⟨.assigned, 7, "Assignees added", .addedIds [3], 60⟩,
       ⟨.unassigned, 7, "Assignees removed", .removedIds [1], 60⟩] := by
  have h := c9_assignee_symmetric_difference 1 2 3 7 60 c9Task
    (by decide) (by decide) (by decide) rfl
  exact ⟨h.1, by simpa [c9Task] using h.2.1⟩

/-! ## Presence registry (src/backend/src/socket/index.ts)

The module-level `onlineUsers` map sends each user id to the set of its open
socket ids.  It is modelled as an association list whose entries carry the
socket-id set as a duplicate-free list.  `io.emit` calls of the
`user:online` event are recorded as `Broadcast` values. -/

structure Broadcast where
  userId : Nat
  online : Bool
deriving DecidableEq, Repr

abbrev PresenceMap := List (Nat × List Nat)

def lookupConns (m : PresenceMap) (u : Nat) : Option (List Nat) :=
  (m.find? (fun p => p.fst == u)).map Prod.snd

def setConns (m : PresenceMap) (u : Nat) (cs : List Nat) : PresenceMap :=
  m.map fun p => if p.fst == u then (p.fst, cs) else p

def removeUser (m : PresenceMap) (u : Nat) : PresenceMap :=
  m.filter fun p => p.fst != u

/-- The connection handler (lines 45-64): create the entry on first sight,
add the socket id to the set, and unconditionally `io.emit` a
`user:online / online: true` broadcast. -/
def connectConn (m : PresenceMap) (u c : Nat) : PresenceMap × List Broadcast :=
  match lookupConns m u with
  | some cs =>
    let cs2 := if c ∈ cs then cs else cs ++ [c]
    (setConns m u cs2, [⟨u, true⟩])
  | none => (m ++ [(u, [c])], [⟨u, true⟩])

/-- The disconnect handler (lines 109-123): remove the socket id from the
set of the user, and only when the set becomes empty delete the entry and
`io.emit` a `user:online / online: false` broadcast. -/
def disconnectConn (m : PresenceMap) (u c : Nat) : PresenceMap × List Broadcast :=
  match lookupConns m u with
  | none => (m, [])
  | some cs =>
    if (cs.filter (fun x => x ≠ c)).length = 0 then (removeUser m u, [⟨u, false⟩])
    else (setConns m u (cs.filter (fun x => x ≠ c)), [])

/-- `isUserOnline` (lines 137-139): the map has the user and the set is
non-empty. -/
def isUserOnline (m : PresenceMap) (u : Nat) : Bool :=
  match lookupConns m u with
  | some cs => decide (0 < cs.length)
  | none => false

inductive SocketEvent
  | connect (u c : Nat)
  | disconnect (u c : Nat)
deriving DecidableEq, Repr

def stepEvent (m : PresenceMap) (e : SocketEvent) : PresenceMap × List Broadcast :=
  match e with
  | .connect u c => connectConn m u c
  | .disconnect u c => disconnectConn m u c

def runEvents (m : PresenceMap) : List SocketEvent → PresenceMap × List Broadcast
  | [] => (m, [])
  | e :: es =>
    let r := stepEvent m e
    let rest := runEvents r.fst es
    (rest.fst, r.snd ++ rest.snd)

def offlineEmits (bs : List Broadcast) : Nat :=
  (bs.filter (fun b => b.online == false)).length

def onlineEmits (bs : List Broadcast) : Nat :=
  (bs.filter (fun b => b.online == true)).length

/-- C4: from an empty registry, connecting a user from two distinct
connections and disconnecting one leaves the user online with no offline
broadcast emitted; disconnecting the second takes the user offline with
exactly one offline broadcast in total. -/
theorem c4_presence_reference_counting (u c1 c2 : Nat) (h : c1 ≠ c2) :
    isUserOnline (runEvents [] [.connect u c1, .connect u c2, .disconnect u c1]).fst u = true ∧
    offlineEmits (runEvents [] [.connect u c1, .connect u c2, .disconnect u c1]).snd = 0 ∧
    isUserOnline
      (runEvents [] [.connect u c1, .connect u c2, .disconnect u c1, .disconnect u c2]).fst u
      = false ∧
    offlineEmits
      (runEvents [] [.connect u c1, .connect u c2, .disconnect u c1, .disconnect u c2]).snd
      = 1 := by
  have h21 : c2 ≠ c1 := h.symm
  refine ⟨?_, ?_, ?_, ?_⟩ <;>
    simp [runEvents, stepEvent, connectConn, disconnectConn, lookupConns, setConns,
      removeUser, isUserOnline, offlineEmits, h, h21]

/-- C4 witness: the theorem at user 0 with connections 0 and 1. -/
theorem c4_presence_reference_counting_witness :
    isUserOnline (runEvents [] [.connect 0 0, .connect 0 1, .disconnect 0 0]).fst 0 = true ∧
    offlineEmits (runEvents [] [.connect 0 0, .connect 0 1, .disconnect 0 0]).snd = 0 ∧
    isUserOnline
      (runEvents [] [.connect 0 0, .connect 0 1, .disconnect 0 0, .disconnect 0 1]).fst 0
      = false ∧
    offlineEmits
      (runEvents [] [.connect 0 0, .connect 0 1, .disconnect 0 0, .disconnect 0 1]).snd
      = 1 :=
  c4_presence_reference_counting 0 0 1 (by decide)

/-- C5 counterexample: with user 0 already online through socket 10, a second
connection from socket 11 still emits a `user:online` broadcast, refuting the
claim that registering an additional connection for an already-online user
emits no broadcast. -/
theorem c5_additional_connection_still_broadcasts :
    isUserOnline (connectConn [] 0 10).fst 0 = true ∧
    (connectConn (connectConn [] 0 10).fst 0 11).snd = [⟨0, true⟩] := by
  decide

theorem lookupConns_setConns (m : PresenceMap) (u : Nat) (cs cs2 : List Nat)
    (h : lookupConns m u = some cs) :
    lookupConns (setConns m u cs2) u = some cs2 := by
  induction m with
  | nil => simp [lookupConns] at h
  | cons p rest ih =>
    by_cases hp : p.fst = u
    · simp [lookupConns, setConns, List.find?, hp]
    · have hp' : (p.fst == u) = false := by simp [hp]
      simp only [lookupConns, setConns, List.map_cons, List.find?, hp', if_neg] at h ⊢
      simp only [hp', if_neg, Bool.false_eq_true, reduceIte] at h ⊢
      exact ih h

theorem lookupConns_removeUser (m : PresenceMap) (u : Nat) :
    lookupConns (removeUser m u) u = none := by
  unfold lookupConns removeUser
  rw [List.find?_eq_none.mpr]
  · rfl
  · intro p hp
    have := (List.mem_filter.mp hp).2
    simpa using this

theorem lookupConns_nonempty (m : PresenceMap) (u : Nat) (cs : List Nat)
    (hwf : ∀ p ∈ m, p.snd ≠ []) (h : lookupConns m u = some cs) : cs ≠ [] := by
  unfold lookupConns at h
  cases hf : m.find? (fun p => p.fst == u) with
  | none => rw [hf] at h; simp at h
  | some p =>
    rw [hf] at h
    simp at h
    subst h
    exact hwf p (List.mem_of_find?_eq_some hf)

theorem disconnectConn_none (m : PresenceMap) (u c : Nat)
    (h : lookupConns m u = none) : disconnectConn m u c = (m, []) := by
  unfold disconnectConn
  rw [h]

theorem disconnectConn_some (m : PresenceMap) (u c : Nat) (cs : List Nat)
    (h : lookupConns m u = some cs) :
    disconnectConn m u c =
      if (cs.filter (fun x => x ≠ c)).length = 0 then (removeUser m u, [⟨u, false⟩])
      else (setConns m u (cs.filter (fun x => x ≠ c)), []) := by
  unfold disconnectConn
  rw [h]

theorem disconnect_snd_cases (m : PresenceMap) (u c : Nat) :
    (disconnectConn m u c).snd = [] ∨ (disconnectConn m u c).snd = [⟨u, false⟩] := by
  cases h : lookupConns m u with
  | none => left; rw [disconnectConn_none m u c h]
  | some cs =>
    rw [disconnectConn_some m u c cs h]
    by_cases hl : (cs.filter (fun x => x ≠ c)).length = 0
    · right; rw [if_pos hl]
    · left; rw [if_neg hl]

theorem connect_wf (m : PresenceMap) (u c : Nat) (hwf : ∀ p ∈ m, p.snd ≠ []) :
    ∀ p ∈ (connectConn m u c).fst, p.snd ≠ [] := by
  unfold connectConn
  cases h : lookupConns m u with
  | none =>
    intro p hp
    rcases List.mem_append.mp hp with hm | hm
    · exact hwf p hm
    · simp at hm
      subst hm
      simp
  | some cs =>
    intro p hp
    simp only [setConns, List.mem_map] at hp
    obtain ⟨q, hq, hpq⟩ := hp
    by_cases hqu : q.fst = u
    · rw [← hpq]
      simp only [hqu, beq_self_eq_true, if_pos]
      by_cases hc : c ∈ cs
      · simp [hc]
        exact List.ne_nil_of_mem hc
      · simp [hc]
    · rw [← hpq]
      have hqu' : (q.fst == u) = false := by simp [hqu]
      simp only [hqu', Bool.false_eq_true, reduceIte]
      exact hwf q hq

theorem disconnect_wf (m : PresenceMap) (u c : Nat) (hwf : ∀ p ∈ m, p.snd ≠ []) :
    ∀ p ∈ (disconnectConn m u c).fst, p.snd ≠ [] := by
  cases h : lookupConns m u with
  | none => rw [disconnectConn_none m u c h]; exact fun p hp => hwf p hp
  | some cs =>
    rw [disconnectConn_some m u c cs h]
    by_cases hl : (cs.filter (fun x => x ≠ c)).length = 0
    · rw [if_pos hl]
      intro p hp
      exact hwf p (List.mem_filter.mp hp).1
    · rw [if_neg hl]
      intro p hp
      simp only [setConns, List.mem_map] at hp
      obtain ⟨q, hq, hpq⟩ := hp
      by_cases hqu : q.fst = u
      · rw [← hpq]
        have hqu' : (q.fst == u) = true := by simp [hqu]
        simp only [hqu', if_pos]
        intro hnil
        exact hl (by rw [hnil]; rfl)
      · rw [← hpq]
        have hqu' : (q.fst == u) = false := by simp [hqu]
        simp only [hqu', Bool.false_eq_true, reduceIte]
        exact hwf q hq

theorem onlineEmits_trace (es : List SocketEvent) :
    ∀ m0 : PresenceMap,
      onlineEmits (runEvents m0 es).snd =
        (es.filter (fun e => match e with | .connect _ _ => true | _ => false)).length := by
  induction es with
  | nil => intro m0; simp [runEvents, onlineEmits]
  | cons e rest ih =>
    intro m0
    have happ : onlineEmits ((stepEvent m0 e).snd ++ (runEvents (stepEvent m0 e).fst rest).snd) =
        onlineEmits (stepEvent m0 e).snd +
          onlineEmits (runEvents (stepEvent m0 e).fst rest).snd := by
      unfold onlineEmits
      rw [List.filter_append, List.length_append]
    cases e with
    | connect u c =>
      have hone : onlineEmits (stepEvent m0 (.connect u c)).snd = 1 := by
        unfold stepEvent connectConn
        cases h : lookupConns m0 u <;> simp [h, onlineEmits]
      simp only [runEvents, happ, hone, ih]
      simp [List.filter]
      omega
    | disconnect u c =>
      have hzero : onlineEmits (stepEvent m0 (.disconnect u c)).snd = 0 := by
        show onlineEmits (disconnectConn m0 u c).snd = 0
        rcases disconnect_snd_cases m0 u c with h | h <;> rw [h] <;> simp [onlineEmits]
      simp only [runEvents, happ, hzero, ih]
      simp [List.filter]

/-- C5 (amended): every connect emits exactly one online broadcast, whether
or not the user was already online; a disconnect emits exactly one offline
broadcast when it is an online-to-offline edge and none otherwise; and both
operations preserve the invariant that tracked connection sets are
non-empty.  Moreover over any event sequence the number of online broadcasts
equals the number of connect events. -/
theorem c5_broadcast_per_event (m : PresenceMap) (u c : Nat)
    (hwf : ∀ p ∈ m, p.snd ≠ []) :
    (connectConn m u c).snd = [⟨u, true⟩] ∧
    ((disconnectConn m u c).snd =
      if isUserOnline m u = true ∧ isUserOnline (disconnectConn m u c).fst u = false
      then [⟨u, false⟩] else []) ∧
    (∀ p ∈ (connectConn m u c).fst, p.snd ≠ []) ∧
    (∀ p ∈ (disconnectConn m u c).fst, p.snd ≠ []) ∧
    (∀ es : List SocketEvent, ∀ m0 : PresenceMap,
      onlineEmits (runEvents m0 es).snd =
        (es.filter (fun e => match e with | .connect _ _ => true | _ => false)).length) := by
  refine ⟨?_, ?_, connect_wf m u c hwf, disconnect_wf m u c hwf,
    fun es m0 => onlineEmits_trace es m0⟩
  · unfold connectConn
    cases lookupConns m u <;> rfl
  · cases h : lookupConns m u with
    | none =>
      have hd : disconnectConn m u c = (m, []) := disconnectConn_none m u c h
      have hoff : isUserOnline m u = false := by simp [isUserOnline, h]
      rw [hd]
      simp [hoff]
    | some cs =>
      have hne : cs ≠ [] := lookupConns_nonempty m u cs hwf h
      have hon : isUserOnline m u = true := by
        unfold isUserOnline
        rw [h]
        show decide (0 < cs.length) = true
        simp only [decide_eq_true_eq]
        exact List.length_pos.mpr hne
      by_cases hl : (cs.filter (fun x => x ≠ c)).length = 0
      · have hd : disconnectConn m u c = (removeUser m u, [⟨u, false⟩]) := by
          rw [disconnectConn_some m u c cs h, if_pos hl]
        have hafter : isUserOnline (removeUser m u) u = false := by
          simp [isUserOnline, lookupConns_removeUser]
        rw [hd]
        simp [hon, hafter]
      · have hd : disconnectConn m u c = (setConns m u (cs.filter (fun x => x ≠ c)), []) := by
          rw [disconnectConn_some m u c cs h, if_neg hl]
        have hafter : isUserOnline (setConns m u (cs.filter (fun x => x ≠ c))) u = true := by
          unfold isUserOnline
          rw [lookupConns_setConns m u cs _ h]
          show decide (0 < _) = true
          simp only [decide_eq_true_eq]
          exact Nat.pos_of_ne_zero hl
        rw [hd]
        show ([] : List Broadcast) =
          if isUserOnline m u = true ∧
              isUserOnline (setConns m u (cs.filter (fun x => x ≠ c))) u = false
          then [⟨u, false⟩] else []
        rw [hafter]
        simp

/-- C5 witness: the amended theorem applied at the empty registry. -/
theorem c5_broadcast_per_event_witness :
    (connectConn [] 0 1).snd = [⟨0, true⟩] ∧
    ((disconnectConn [] 0 1).snd =
      if isUserOnline [] 0 = true ∧ isUserOnline (disconnectConn [] 0 1).fst 0 = false
      then [⟨0, false⟩] else []) ∧
    (∀ p ∈ (connectConn [] 0 1).fst, p.snd ≠ []) ∧
    (∀ p ∈ (disconnectConn [] 0 1).fst, p.snd ≠ []) ∧
    (∀ es : List SocketEvent, ∀ m0 : PresenceMap,
      onlineEmits (runEvents m0 es).snd =
        (es.filter (fun e => match e with | .connect _ _ => true | _ => false)).length) :=
  c5_broadcast_per_event [] 0 1 (by simp)

/-! ## Message data model (src/backend/src/models/Message.ts) and
MessageService (src/unnamed/part_003)

The message collection is modelled as a `List Message`; Mongo `updateOne`
with an `_id` filter touches the first matching document (ids are unique in
a real collection) and `updateMany` touches all matching documents. -/

structure ReadEntry where
  user : Nat
  readAt : Nat
deriving DecidableEq, Repr

structure Reaction where
  emoji : String
  users : List Nat
deriving DecidableEq, Repr

structure Message where
  id : Nat
  content : String
  sender : Nat
  recipient : Option Nat := none
  channel : Option String := none
  taskRef : Option Nat := none
  mentions : List Nat := []
  replyTo : Option Nat := none
  readBy : List ReadEntry := []
  reactions : List Reaction := []
  isEdited : Bool := false
  isDeleted : Bool := false
  createdAt : Nat := 0
deriving DecidableEq, Repr

/-- Mongo condition `readBy.user: { $ne: u }` negated: some readBy entry is
by `u`. -/
def readByUser (m : Message) (u : Nat) : Bool :=
  m.readBy.any (fun e => e.user == u)

/-- Mongo condition `reactions.emoji: e`: some reaction entry carries the
emoji. -/
def hasEmojiEntry (m : Message) (e : String) : Bool :=
  m.reactions.any (fun r => r.emoji == e)

/-- Mongo condition `reactions.users: { $ne: u }` negated: the dotted path
traverses both array levels, so this holds when `u` appears in the user list
of any reaction entry, whatever its emoji. -/
def reactedAny (m : Message) (u : Nat) : Bool :=
  m.reactions.any (fun r => r.users.contains u)

/-- User list of the first reaction entry for an emoji (empty when none). -/
def usersOf (m : Message) (e : String) : List Nat :=
  ((m.reactions.find? (fun r => r.emoji == e)).map Reaction.users).getD []

/-- Mongo `updateOne`: rewrite the first document matching the filter. -/
def updateFirst (store : List Message) (p : Message → Bool) (f : Message → Message) :
    List Message :=
  match store with
  | [] => []
  | m :: rest => if p m then f m :: rest else m :: updateFirst rest p f

/-! ### Sending (part_003 sendMessage, part_001 POST /api/messages) -/

structure SendMessageData where
  content : String
  recipient : Option Nat := none
  channel : Option String := none
  taskRef : Option Nat := none
  mentions : List Nat := []
  replyTo : Option Nat := none
deriving DecidableEq, Repr

/-- JS truthiness of an optional string (the empty string is falsy). -/
def strTruthy : Option String → Bool
  | none => false
  | some s => decide (s ≠ "")

/-- JS truthiness of an optional id (route-validated ids are non-empty
strings, hence truthy whenever present). -/
def idTruthy : Option Nat → Bool
  | none => false
  | some _ => true

/-- `MessageService.sendMessage`: builds and saves the new document with the
fields exactly as supplied; it performs no shape validation of its own. -/
def sendMessage (store : List Message) (d : SendMessageData) (sender newId now : Nat) :
    List Message × Message :=
  let msg : Message :=
    { id := newId, content := d.content, sender := sender, recipient := d.recipient,
      channel := d.channel, taskRef := d.taskRef, mentions := d.mentions,
      replyTo := d.replyTo, createdAt := now }
  (store ++ [msg], msg)

/-- The POST /api/messages handler (part_001 lines 496-543): it rejects with
400 before any persistence when neither `recipient` nor `channel` is truthy,
and otherwise persists via `sendMessage`.  `none` models the rejected
request. -/
def postMessage (store : List Message) (body : SendMessageData) (sender newId now : Nat) :
    List Message × Option Message :=
  if !(idTruthy body.recipient) && !(strTruthy body.channel) then (store, none)
  else
    let r := sendMessage store body sender newId now
    (r.fst, some r.snd)

/-! ### Read receipts (part_003 markAsRead / markConversationAsRead) -/

/-- `markAsRead`: `updateMany` over `_id ∈ ids` and `readBy.user ≠ u`,
pushing a `{user, readAt: now}` entry.  No `isDeleted` condition appears in
the filter. -/
def markAsRead (store : List Message) (ids : List Nat) (u now : Nat) : List Message :=
  store.map fun m =>
    if ids.contains m.id && !(readByUser m u) then
      { m with readBy := m.readBy ++ [⟨u, now⟩] }
    else m

/-- The filter `markConversationAsRead` builds: always `readBy.user ≠ u`;
a `channel` clause only when the channel option is truthy; a
`$or [{sender: recipientId, recipient: u}]` clause only when the
recipient-id option is truthy. -/
def convQuery (u : Nat) (ch : Option String) (rid : Option Nat) (m : Message) : Bool :=
  !(readByUser m u) &&
  (if strTruthy ch then m.channel == ch else true) &&
  (match rid with
   | some r => m.sender == r && m.recipient == some u
   | none => true)

/-- `markConversationAsRead`: `updateMany` over `convQuery`, pushing a
readBy entry. -/
def markConversationAsRead (store : List Message) (u : Nat)
    (ch : Option String) (rid : Option Nat) (now : Nat) : List Message :=
  store.map fun m =>
    if convQuery u ch rid m then { m with readBy := m.readBy ++ [⟨u, now⟩] } else m

/-! ### Reactions (part_003 addReaction / removeReaction) -/

/-- `$push: reactions.$.users` — append the user to the first entry whose
emoji matches. -/
def pushUserToEmoji (rs : List Reaction) (e : String) (u : Nat) : List Reaction :=
  match rs with
  | [] => []
  | r :: rest =>
    if r.emoji == e then { r with users := r.users ++ [u] } :: rest
    else r :: pushUserToEmoji rest e u

/-- `$pull: reactions.$.users` — remove the user from the first entry whose
emoji matches. -/
def pullUserFromEmoji (rs : List Reaction) (e : String) (u : Nat) : List Reaction :=
  match rs with
  | [] => []
  | r :: rest =>
    if r.emoji == e then { r with users := r.users.filter (fun x => x ≠ u) } :: rest
    else r :: pullUserFromEmoji rest e u

/-- `addReaction` (lines 293-325): the first `updateOne` matches the message
when it has an entry for the emoji and the user appears in no entry at all
(`reactions.users: {$ne: u}` spans every entry); when that modified nothing,
the fallback `updateOne` pushes a fresh `{emoji, users: [u]}` entry provided
no entry for the emoji exists.  Neither filter mentions `isDeleted`. -/
def addReaction (store : List Message) (msgId : Nat) (e : String) (u : Nat) :
    List Message :=
  if store.any (fun m => m.id == msgId && hasEmojiEntry m e && !(reactedAny m u)) then
    updateFirst store
      (fun m => m.id == msgId && hasEmojiEntry m e && !(reactedAny m u))
      (fun m => { m with reactions := pushUserToEmoji m.reactions e u })
  else
    updateFirst store
      (fun m => m.id == msgId && !(hasEmojiEntry m e))
      (fun m => { m with reactions := m.reactions ++ [⟨e, [u]⟩] })

/-- `removeReaction` (lines 330-351): pull the user from the entry for the
emoji, then pull every reaction entry whose user list became empty.  Neither
filter mentions `isDeleted`. -/
def removeReaction (store : List Message) (msgId : Nat) (e : String) (u : Nat) :
    List Message :=
  let s1 := updateFirst store
    (fun m => m.id == msgId && hasEmojiEntry m e)
    (fun m => { m with reactions := pullUserFromEmoji m.reactions e u })
  updateFirst s1 (fun m => m.id == msgId)
    (fun m => { m with reactions := m.reactions.filter (fun r => r.users.length ≠ 0) })

/-! ### Queries (part_003 getMessages / getUnreadCount) -/

structure MessageFilters where
  channel : Option String := none
  recipient : Option Nat := none
  sender : Option Nat := none
  taskRef : Option Nat := none
  since : Option Nat := none
deriving DecidableEq, Repr

structure PaginationOptions where
  limit : Nat := 50
  before : Option Nat := none
deriving DecidableEq, Repr

/-- The find query of `getMessages`: always `isDeleted ≠ true`, plus the
optional filter clauses.  The routes supply `sender` whenever `recipient`
is set; a recipient filter without a sender matches nothing here (the source
would build it from a freshly generated ObjectId). -/
def msgQuery (f : MessageFilters) (before : Option Nat) (m : Message) : Bool :=
  !m.isDeleted &&
  (if strTruthy f.channel then m.channel == f.channel else true) &&
  (match f.recipient, f.sender with
   | some r, some s =>
     (m.sender == s && m.recipient == some r) || (m.sender == r && m.recipient == some s)
   | some _, none => false
   | none, _ => true) &&
  (match f.taskRef with
   | some t => m.taskRef == some t
   | none => true) &&
  (match f.since with
   | some s => decide (s < m.createdAt)
   | none => true) &&
  (match before with
   | some b => decide (m.createdAt < b)
   | none => true)

/-- `getMessages`: filter, sort by `createdAt` descending, fetch `limit + 1`
documents, pop the extra one when present (`hasMore`), and reverse into
chronological order. -/
def getMessages (f : MessageFilters) (o : PaginationOptions) (store : List Message) :
    List Message × Bool :=
  let sorted := (store.filter (msgQuery f o.before)).mergeSort
    (fun a b => decide (b.createdAt ≤ a.createdAt))
  let taken := sorted.take (o.limit + 1)
  let hasMore := decide (o.limit < taken.length)
  ((if hasMore then taken.dropLast else taken).reverse, hasMore)

/-- The `$match` stage of `getUnreadCount` (lines 363-374): not deleted, not
sent by the user, either addressed to the user directly or carrying any
channel field, and not yet read by the user. -/
def unreadMatch (u : Nat) (m : Message) : Bool :=
  !m.isDeleted && m.sender != u &&
  (m.recipient == some u || m.channel.isSome) &&
  !(readByUser m u)

/-- The grand total of `getUnreadCount` (the `$group` stage partitions the
matched messages and the totals are summed back up). -/
def getUnreadTotal (u : Nat) (store : List Message) : Nat :=
  (store.filter (unreadMatch u)).length

/-- Sum of the per-channel buckets: matched messages whose channel field is
present. -/
def unreadByChannelTotal (u : Nat) (store : List Message) : Nat :=
  (store.filter (fun m => unreadMatch u m && m.channel.isSome)).length

/-- Sum of the per-counterpart buckets: matched messages with no channel
field (grouped by sender in the source). -/
def unreadByConversationTotal (u : Nat) (store : List Message) : Nat :=
  (store.filter (fun m => unreadMatch u m && m.channel == none)).length

/-- Modelled from the spec: the repository has no persistent channel
membership, so the notion in the claim of the channels a user participates
in is taken as an arbitrary predicate; a message is unread per the
specification when it is not deleted, not sent by the user, unread by the
user, and either a direct message to the user or a channel message in a
participating channel. -/
def specUnreadTotal (participates : String → Bool) (u : Nat) (store : List Message) : Nat :=
  (store.filter (fun m =>
    !m.isDeleted && m.sender != u &&
    (m.recipient == some u ||
      (match m.channel with
       | some c => participates c
       | none => false)) &&
    !(readByUser m u))).length

/-! ## Message claims -/

/-- C3 counterexample: a send request supplying both a recipient and a
channel is accepted and persisted (with both fields set on the stored
message), not rejected before persistence. -/
theorem c3_both_recipient_and_channel_persisted :
    (postMessage [] { content := "hi", recipient := some 5, channel := some "general" }
        1 9 0).fst =
      [{ id := 9, content := "hi", sender := 1, recipient := some 5,
         channel := some "general", createdAt := 0 }] ∧
    (postMessage [] { content := "hi", recipient := some 5, channel := some "general" }
        1 9 0).snd.isSome = true := by
  decide

/-- C3 (amended): the handler rejects, before any persistence, exactly the
requests in which neither recipient nor channel is supplied; whenever a
recipient or a channel is supplied — including when both are — the message
is persisted carrying exactly the supplied recipient and channel. -/
theorem c3_shape_validation (store : List Message) (body : SendMessageData)
    (sender newId now : Nat) :
    (idTruthy body.recipient = false ∧ strTruthy body.channel = false →
      postMessage store body sender newId now = (store, none)) ∧
    (idTruthy body.recipient = true ∨ strTruthy body.channel = true →
      (postMessage store body sender newId now).fst.length = store.length + 1 ∧
      (postMessage store body sender newId now).fst.getLast? =
        some { id := newId, content := body.content, sender := sender,
               recipient := body.recipient, channel := body.channel,
               taskRef := body.taskRef, mentions := body.mentions,
               replyTo := body.replyTo, createdAt := now } ∧
      (postMessage store body sender newId now).snd.isSome = true) := by
  constructor
  · intro h
    simp [postMessage, h.1, h.2]
  · intro h
    have hcond : (!(idTruthy body.recipient) && !(strTruthy body.channel)) = false := by
      rcases h with h | h <;> simp [h]
    simp [postMessage, hcond, sendMessage]

/-- C3 witness: the amended theorem applied to a body with neither field and
to a body with a channel. -/
theorem c3_shape_validation_witness :
    postMessage [] { content := "x" } 1 9 0 = ([], none) ∧
    (postMessage [] { content := "x", channel := some "general" } 1 9 0).fst.length
      = 0 + 1 :=
  ⟨(c3_shape_validation [] { content := "x" } 1 9 0).1 ⟨rfl, rfl⟩,
   ((c3_shape_validation [] { content := "x", channel := some "general" } 1 9 0).2
     (Or.inr (by decide))).1⟩

/-- C10: with neither a channel nor a counterpart supplied, the
conversation-level mark-as-read selects every message the user has not read:
each such message — whatever its channel, recipient, sender or deletion
state — gains a readBy entry for the user, already-read messages are
unchanged, and the store size is preserved; the call is not rejected and the
target set is not empty. -/
theorem c10_conversation_read_targets_everything (store : List Message) (u now : Nat) :
    (markConversationAsRead store u none none now).length = store.length ∧
    (∀ m ∈ store, readByUser m u = false →
      { m with readBy := m.readBy ++ [⟨u, now⟩] } ∈
        markConversationAsRead store u none none now) ∧
    (∀ m ∈ store, readByUser m u = true →
      m ∈ markConversationAsRead store u none none now) := by
  refine ⟨by simp [markConversationAsRead], ?_, ?_⟩
  · intro m hm hr
    have hq : convQuery u none none m = true := by
      simp [convQuery, strTruthy, hr]
    exact List.mem_map.mpr ⟨m, hm, by simp [markConversationAsRead, hq]⟩
  · intro m hm hr
    have hq : convQuery u none none m = false := by
      simp [convQuery, strTruthy, hr]
    exact List.mem_map.mpr ⟨m, hm, by simp [markConversationAsRead, hq]⟩

/-- A soft-deleted message of user 7, unread by everyone. -/
def c10Msg : Message := { id := 21, content := "m", sender := 7, isDeleted := true }

/-- C10 witness: even a soft-deleted message sent by the user themself gains
the readBy entry. -/
theorem c10_conversation_read_targets_everything_witness :
    { c10Msg with readBy := [⟨7, 99⟩] } ∈ markConversationAsRead [c10Msg] 7 none none 99 := by
  have h := (c10_conversation_read_targets_everything [c10Msg] 7 99).2.1 c10Msg
    (by simp) (by decide)
  simpa [c10Msg] using h

/-- A soft-deleted direct message, unread by user 7, with one reaction. -/
def c7Msg : Message :=
  { id := 31, content := "m", sender := 1, recipient := some 2, isDeleted := true,
    reactions := [⟨"x", [5]⟩] }

/-- C7 counterexample: on a soft-deleted message, mark-as-read and reaction
add/remove are not rejected: they mutate the readBy and reactions fields. -/
theorem c7_deleted_message_still_mutated :
    c7Msg.isDeleted = true ∧
    markAsRead [c7Msg] [31] 7 99 = [{ c7Msg with readBy := [⟨7, 99⟩] }] ∧
    addReaction [c7Msg] 31 "y" 7 = [{ c7Msg with reactions := [⟨"x", [5]⟩, ⟨"y", [7]⟩] }] ∧
    removeReaction [c7Msg] 31 "x" 5 = [{ c7Msg with reactions := [] }] := by
  decide

/-- C7 (amended): soft-deleted messages are excluded from `getMessages`
results, but the read and reaction mutations carry no `isDeleted` condition:
they apply to any message — deleted or not — matching their id filters. -/
theorem c7_soft_delete_exclusion_only_in_queries :
    (∀ (f : MessageFilters) (o : PaginationOptions) (store : List Message)
       (m : Message), m ∈ (getMessages f o store).fst → m.isDeleted = false) ∧
    (∀ (m : Message) (u now : Nat), readByUser m u = false →
       markAsRead [m] [m.id] u now = [{ m with readBy := m.readBy ++ [⟨u, now⟩] }]) ∧
    (∀ (m : Message) (e : String) (u : Nat), hasEmojiEntry m e = false →
       addReaction [m] m.id e u = [{ m with reactions := m.reactions ++ [⟨e, [u]⟩] }]) := by
  refine ⟨?_, ?_, ?_⟩
  · intro f o store m hm
    simp only [getMessages] at hm
    rw [List.mem_reverse] at hm
    have hmem : m ∈ (store.filter (msgQuery f o.before)).mergeSort
        (fun a b => decide (b.createdAt ≤ a.createdAt)) := by
      by_cases hmore : (decide (o.limit <
          (((store.filter (msgQuery f o.before)).mergeSort
            (fun a b => decide (b.createdAt ≤ a.createdAt))).take (o.limit + 1)).length)) = true
      · rw [if_pos hmore] at hm
        exact List.take_subset _ _ (List.dropLast_subset _ hm)
      · rw [if_neg (by simpa using hmore)] at hm
        exact List.take_subset _ _ hm
    have hq : msgQuery f o.before m = true :=
      (List.mem_filter.mp (List.mem_mergeSort.mp hmem)).2
    simp only [msgQuery, Bool.and_eq_true, Bool.not_eq_true'] at hq
    exact hq.1.1.1.1.1
  · intro m u now hr
    simp [markAsRead, hr]
  · intro m e u he
    have hany : ([m].any fun x => x.id == m.id && hasEmojiEntry x e && !(reactedAny x u)) = false := by
      simp [he]
    simp [addReaction, hany, updateFirst, he]

/-- C7 witness: the amended theorem applied at the deleted message `c7Msg`:
mark-as-read by user 7 mutates it. -/
theorem c7_soft_delete_exclusion_only_in_queries_witness :
    markAsRead [c7Msg] [c7Msg.id] 7 99 = [{ c7Msg with readBy := c7Msg.readBy ++ [⟨7, 99⟩] }] :=
  c7_soft_delete_exclusion_only_in_queries.2.1 c7Msg 7 99 (by decide)

/-- A message on which user 7 reacted with emoji x while emoji y has an
entry from user 8. -/
def c6Msg : Message :=
  { id := 41, content := "m", sender := 1, reactions := [⟨"x", [7]⟩, ⟨"y", [8]⟩] }

/-- C6 counterexample: although `c6Msg` is not deleted and has a reaction
entry for y that does not contain user 7, adding the reaction (41, y, 7) is
a no-op because user 7 already reacted with x: the `$ne` filter on the
nested users path blocks the first update and the existing y entry blocks
the fallback. -/
theorem c6_cross_emoji_add_is_noop :
    c6Msg.isDeleted = false ∧
    hasEmojiEntry c6Msg "y" = true ∧
    usersOf c6Msg "y" = [8] ∧
    addReaction [c6Msg] 41 "y" 7 = [c6Msg] := by
  decide

theorem find?_pushUserToEmoji (rs : List Reaction) (e : String) (u : Nat)
    (h : rs.any (fun r => r.emoji == e) = true) :
    ∃ r, rs.find? (fun r => r.emoji == e) = some r ∧
      (pushUserToEmoji rs e u).find? (fun r2 => r2.emoji == e) =
        some { r with users := r.users ++ [u] } := by
  induction rs with
  | nil => simp at h
  | cons r rest ih =>
    by_cases hr : (r.emoji == e) = true
    · refine ⟨r, ?_, ?_⟩
      · simp [List.find?, hr]
      · simp [pushUserToEmoji, hr, List.find?]
    · have hr' : (r.emoji == e) = false := by revert hr; cases r.emoji == e <;> simp
      have htail : rest.any (fun r => r.emoji == e) = true := by
        simp only [List.any_cons, hr', Bool.false_or] at h
        exact h
      obtain ⟨r0, h1, h2⟩ := ih htail
      refine ⟨r0, ?_, ?_⟩
      · simp [List.find?, hr', h1]
      · simp [pushUserToEmoji, hr', List.find?, h2]

/-- C6 (amended): the behaviour of the add-reaction operation on a
non-deleted message splits on whether the user already reacted on the
message with any emoji.  When the user has no reaction at all and an entry
for the emoji exists, the user is appended to that entry; when no entry for
the emoji exists, a fresh entry with exactly this user is created (whatever
other reactions the user has); but when an entry for the emoji exists and
the user already reacted with any emoji on the message — including the
identical repeat, which makes the operation idempotent — the operation is a
no-op. -/
theorem c6_reaction_add_cases (m : Message) (e : String) (u : Nat) :
    (hasEmojiEntry m e = true → reactedAny m u = false →
      addReaction [m] m.id e u = [{ m with reactions := pushUserToEmoji m.reactions e u }] ∧
      usersOf { m with reactions := pushUserToEmoji m.reactions e u } e =
        usersOf m e ++ [u]) ∧
    (hasEmojiEntry m e = false →
      addReaction [m] m.id e u = [{ m with reactions := m.reactions ++ [⟨e, [u]⟩] }]) ∧
    (hasEmojiEntry m e = true → reactedAny m u = true →
      addReaction [m] m.id e u = [m]) := by
  refine ⟨?_, ?_, ?_⟩
  · intro he hu
    constructor
    · simp [addReaction, updateFirst, he, hu]
    · obtain ⟨r, h1, h2⟩ := find?_pushUserToEmoji m.reactions e u he
      simp [usersOf, h1, h2]
  · intro he
    have hany : ([m].any fun x => x.id == m.id && hasEmojiEntry x e && !(reactedAny x u)) = false := by
      simp [he]
    simp [addReaction, hany, updateFirst, he]
  · intro he hu
    have hany : ([m].any fun x => x.id == m.id && hasEmojiEntry x e && !(reactedAny x u)) = false := by
      simp [hu]
    simp [addReaction, hany, updateFirst, he]

/-- C6 witness: the amended theorem applied at `c6Msg`: the cross-emoji add
is a no-op, and adding a brand-new emoji entry works. -/
theorem c6_reaction_add_cases_witness :
    addReaction [c6Msg] c6Msg.id "y" 7 = [c6Msg] ∧
    addReaction [c6Msg] c6Msg.id "z" 7 =
      [{ c6Msg with reactions := c6Msg.reactions ++ [⟨"z", [7]⟩] }] :=
  ⟨(c6_reaction_add_cases c6Msg "y" 7).2.2 (by decide) (by decide),
   (c6_reaction_add_cases c6Msg "z" 7).2.1 (by decide)⟩

/-- An unread message in channel general from user 2. -/
def c8Msg : Message := { id := 51, content := "m", sender := 2, channel := some "general" }

/-- C8 counterexample: the aggregation counts channel messages with no
regard to channel participation: for user 7, who participates in no channel,
the code total is 1 while the specification total is 0. -/
theorem c8_unread_ignores_participation :
    getUnreadTotal 7 [c8Msg] = 1 ∧
    specUnreadTotal (fun _ => false) 7 [c8Msg] = 0 := by
  decide

theorem length_filter_split {α : Type} (l : List α) (p q : α → Bool) :
    (l.filter p).length =
      (l.filter (fun a => p a && q a)).length +
      (l.filter (fun a => p a && !(q a))).length := by
  induction l with
  | nil => rfl
  | cons a rest ih =>
    by_cases hp : p a = true
    · by_cases hq : q a = true <;> simp [List.filter_cons, hp, hq, ih] <;> omega
    · have hp' : p a = false := by revert hp; cases p a <;> simp
      simp [List.filter_cons, hp', ih]

/-- C8 (amended): the total unread count for a user equals the number of
messages that are not soft-deleted, not sent by the user, unread by the
user, and either a direct message to the user or a channel message of any
channel whatsoever (the code performs no participation check — it behaves as
the specification count with every channel treated as participating); the
per-channel and per-counterpart buckets partition this total. -/
theorem c8_unread_total_partition (u : Nat) (store : List Message) :
    getUnreadTotal u store = specUnreadTotal (fun _ => true) u store ∧
    getUnreadTotal u store =
      unreadByChannelTotal u store + unreadByConversationTotal u store := by
  constructor
  · unfold getUnreadTotal specUnreadTotal
    congr 1
    apply List.filter_congr
    intro m _
    unfold unreadMatch
    cases hc : m.channel <;> simp [hc]
  · have hsplit := length_filter_split store (unreadMatch u) (fun m => m.channel.isSome)
    have hconv : store.filter (fun m => unreadMatch u m && !(m.channel.isSome)) =
        store.filter (fun m => unreadMatch u m && m.channel == none) := by
      apply List.filter_congr
      intro m _
      cases hc : m.channel <;> simp [hc]
    unfold getUnreadTotal unreadByChannelTotal unreadByConversationTotal
    rw [hsplit, hconv]

end S2P
